import Mathlib

/-!
# Verification of the discord-notetaker capture/chunking/dispatch core

Shallow embedding of the Go sources of `Uhm-J/notetaker`:

* `RingChunker` and its methods (`NewRingChunker`, `AddSamples`, `createChunk`,
  `slideBuffer`, `Stop`) from `internal/audio` (the ring-buffer chunker file);
* the speaker-identity resolver of `VoiceSession`
  (`getCurrentSpeakers`, `autoMapSSRCToUser`, `handleSpeakingUpdate`) from
  `internal/bot/session.go`;
* the chunker construction sites (`getOrCreateChunkerForSSRC` in
  `internal/bot/session.go`, the template built in `handleJoin` from
  `internal/config/config.go` defaults);
* the comfort-noise path of `OpusDecoder.Decode` from `internal/audio/decoder.go`;
* the response-to-utterance mapping of `DeepgramTranscriber.Transcribe` from
  `internal/stt/deepgram/deepgram.go`.

Modelling conventions:

* Go `int16` samples are modelled as `Int`; no arithmetic is ever performed on
  sample values, they are only moved around, so no wrapping is needed.
* `time.Time` / `time.Duration` values are modelled as `Int` nanoseconds;
  `timestamp.Add(time.Duration(i)*time.Second/time.Duration(rate))` is the exact
  integer computation `ts + (i * 1000000000) / rate`.
* The buffered channel `chunkChan` (capacity 10) is modelled as a list `queue`
  plus a `queueClosed` flag; a successful `select` send appends, the `default`
  branch (a logged drop) increments a counter (`dropped` for `createChunk`,
  `droppedFinal` for `Stop`).  The `case <-c.stopChan` branch of `createChunk`
  is unreachable: `createChunk` only runs from `AddSamples`, which returns
  immediately once `stopped` is set, and `stopChan` is closed only together
  with `stopped`.
* Go run-time panics (out-of-range slice bounds, division by zero) are modelled
  by `Option`: a method returns `none` exactly when the Go code would panic.
* `uuid.New()` is omitted from the chunk model (no claim mentions chunk ids);
  the speaker set built by Go-map iteration (unspecified order) is modelled as
  the first-occurrence deduplicated list — no claim inspects its order.
-/

/-- A `Chunk` as in the Go `audio` package: PCM samples, window start/end
timestamps (ns) and the speaker list.  The `uuid` id field is omitted. -/
structure Chunk where
  pcm : List Int
  start : Int
  stop_ : Int
  speakersL : List String
deriving DecidableEq, Repr

/-- State of a Go `RingChunker`: configuration fields, the ring buffer with its
parallel timestamp and speaker arrays, the write position, and the model of the
output channel. -/
structure RingChunker where
  chunkSeconds : Nat
  overlapMS : Nat
  sampleRate : Nat
  chunkSamples : Nat
  overlapSamples : Nat
  buffer : List Int
  timestamps : List Int
  speakers : List (List String)
  bufferPos : Nat
  lastChunkTime : Int
  queue : List Chunk
  queueClosed : Bool
  dropped : Nat
  droppedFinal : Nat
  stopped : Bool
deriving DecidableEq, Repr

namespace RingChunker

/-- `NewRingChunker(chunkSeconds, overlapMS, sampleRate)`:
`chunkSamples = chunkSeconds*sampleRate`,
`overlapSamples = overlapMS*sampleRate/1000`,
buffer of size `chunkSamples + overlapSamples` (zeroed by `make`). -/
def NewRingChunker (chunkSeconds overlapMS sampleRate : Nat) : RingChunker :=
  let chunkSamples := chunkSeconds * sampleRate
  let overlapSamples := (overlapMS * sampleRate) / 1000
  let bufferSize := chunkSamples + overlapSamples
  { chunkSeconds := chunkSeconds
    overlapMS := overlapMS
    sampleRate := sampleRate
    chunkSamples := chunkSamples
    overlapSamples := overlapSamples
    buffer := List.replicate bufferSize 0
    timestamps := List.replicate bufferSize 0
    speakers := List.replicate bufferSize []
    bufferPos := 0
    lastChunkTime := 0
    queue := []
    queueClosed := false
    dropped := 0
    droppedFinal := 0
    stopped := false }

/-- The speaker set collected by `createChunk`/`Stop`: all non-empty tags seen
across the span, deduplicated (Go builds a `map[string]struct{}`; its iteration
order is unspecified, here first occurrence order). -/
def collectSpeakers (l : List (List String)) : List String :=
  (l.flatten.filter (fun s => ¬ s = "")).dedup

/-- `createChunk`: if fewer than `chunkSamples` samples are buffered, do
nothing.  Otherwise copy the oldest `chunkSamples` samples, take the timestamps
at index `0` and `chunkSamples-1`, collect speakers over the span, and try a
non-blocking send on the capacity-10 channel; on `default`, log and drop.
`lastChunkTime` is updated in both the sent and the dropped case.
Returns `none` when the Go indexing `timestamps[0]`/`timestamps[chunkSamples-1]`
or the slices over `[:chunkSamples]` would panic. -/
def createChunk (c : RingChunker) : Option RingChunker :=
  if c.bufferPos < c.chunkSamples then some c
  else if c.chunkSamples = 0 ∨ c.buffer.length < c.chunkSamples ∨
      c.timestamps.length < c.chunkSamples ∨ c.speakers.length < c.chunkSamples then
    none
  else
    let chunkPCM := c.buffer.take c.chunkSamples
    let startTime := c.timestamps.getD 0 0
    let endTime := c.timestamps.getD (c.chunkSamples - 1) 0
    let speakerList := collectSpeakers (c.speakers.take c.chunkSamples)
    let chunk : Chunk := ⟨chunkPCM, startTime, endTime, speakerList⟩
    if c.queue.length < 10 then
      some { c with queue := c.queue ++ [chunk], lastChunkTime := endTime }
    else
      some { c with dropped := c.dropped + 1, lastChunkTime := endTime }

/-- Go's `copy(dst, dst[lo:hi])` on a single slice: the first `hi - lo`
elements become the old elements `lo..hi-1`; everything from index `hi - lo`
on is left in place. -/
def copyFront {α : Type} (l : List α) (lo hi : Nat) : List α :=
  ((l.drop lo).take (hi - lo)) ++ l.drop (hi - lo)

/-- `slideBuffer`: slide by `chunkSamples - overlapSamples` (computed in `int`
arithmetic).  If `0 < slide < len(buffer)`, move `buffer[slide:bufferPos]` to
the front of each parallel array and subtract `slide` from `bufferPos`;
otherwise reset `bufferPos` to `0`.  Returns `none` when the Go slice
`buffer[slide:bufferPos]` would panic (`bufferPos < slide` or
`bufferPos > len(buffer)`). -/
def slideBuffer (c : RingChunker) : Option RingChunker :=
  let slide : Int := (c.chunkSamples : Int) - (c.overlapSamples : Int)
  if 0 < slide ∧ slide < (c.buffer.length : Int) then
    let s := slide.toNat
    if c.bufferPos < s ∨ c.buffer.length < c.bufferPos then none
    else
      some { c with
        buffer := copyFront c.buffer s c.bufferPos
        timestamps := copyFront c.timestamps s c.bufferPos
        speakers := copyFront c.speakers s c.bufferPos
        bufferPos := c.bufferPos - s }
  else
    some { c with bufferPos := 0 }

/-- The per-sample loop of `AddSamples`.  For sample `i`: if
`bufferPos + i >= len(buffer)` first run `createChunk` then `slideBuffer`
(note: `bufferPos` is the *field*, not yet advanced by this call's samples);
then write sample, extrapolated timestamp and speaker tags at
`(bufferPos + i) % len(buffer)`.  `none` models the Go panics (division by a
zero `sampleRate` or `% 0`). -/
def addLoop (ts : Int) (sp : List String) :
    RingChunker → List Int → Nat → Option RingChunker
  | c, [], _ => some c
  | c, x :: rest, i =>
    if c.sampleRate = 0 then none
    else
      let step : Option RingChunker :=
        if c.buffer.length ≤ c.bufferPos + i then
          (createChunk c).bind slideBuffer
        else some c
      step.bind fun c1 =>
        if c1.buffer.length = 0 then none
        else
          let pos := (c1.bufferPos + i) % c1.buffer.length
          addLoop ts sp
            { c1 with
              buffer := c1.buffer.set pos x
              timestamps := c1.timestamps.set pos (ts + ((i * 1000000000) / c1.sampleRate : Nat))
              speakers := c1.speakers.set pos sp }
            rest (i + 1)

/-- `AddSamples(pcm, timestamp, speakers)`: no-op when stopped; otherwise run
the write loop, advance `bufferPos` by `len(pcm)`, and if at least one window
is buffered, `createChunk` then `slideBuffer`. -/
def AddSamples (c : RingChunker) (pcm : List Int) (ts : Int) (sp : List String) :
    Option RingChunker :=
  if c.stopped then some c
  else
    (addLoop ts sp c pcm 0).bind fun c1 =>
      let c2 := { c1 with bufferPos := c1.bufferPos + pcm.length }
      if c2.chunkSamples ≤ c2.bufferPos then (createChunk c2).bind slideBuffer
      else some c2

/-- `Stop()`: return immediately when already stopped.  Otherwise set
`stopped` (and close `stopChan`), flush a final chunk of all `bufferPos`
buffered samples when `bufferPos > overlapSamples` (non-blocking send with a
logged drop on `default`), then close the output channel. -/
def Stop (c : RingChunker) : Option RingChunker :=
  if c.stopped then some c
  else
    let c := { c with stopped := true }
    if c.overlapSamples < c.bufferPos then
      if c.buffer.length < c.bufferPos ∨ c.timestamps.length < c.bufferPos ∨
          c.speakers.length < c.bufferPos then none
      else
        let finalPCM := c.buffer.take c.bufferPos
        let startTime := c.timestamps.getD 0 0
        let endTime := c.timestamps.getD (c.bufferPos - 1) 0
        let speakerList := collectSpeakers (c.speakers.take c.bufferPos)
        let finalChunk : Chunk := ⟨finalPCM, startTime, endTime, speakerList⟩
        if c.queue.length < 10 then
          some { c with queue := c.queue ++ [finalChunk], queueClosed := true }
        else
          some { c with droppedFinal := c.droppedFinal + 1, queueClosed := true }
    else
      some { c with queueClosed := true }

/-- Run a sequence of `AddSamples` calls (pcm, timestamp, speaker tags). -/
def runAdds : RingChunker → List (List Int × Int × List String) → Option RingChunker
  | c, [] => some c
  | c, (pcm, ts, sp) :: rest => (AddSamples c pcm ts sp).bind (runAdds · rest)

/-- Boolean form of the overlap invariant over a chunk list: for each adjacent
pair, the last `ov` samples of the earlier chunk (it has `cs` samples) equal
the first `ov` samples of the later one. -/
def pairwiseOverlapOK (cs ov : Nat) : List Chunk → Bool
  | a :: b :: rest =>
    (a.pcm.drop (cs - ov) == b.pcm.take ov) && pairwiseOverlapOK cs ov (b :: rest)
  | _ => true

end RingChunker

/-! ## Speaker-identity resolver (`internal/bot/session.go`) -/

/-- The parts of a `VoiceSession` the resolver reads and writes:
`speakerMap` (SSRC → UserID, a Go map modelled as an association list),
the guild's `VoiceStates` in slice order as `(UserID, ChannelID)` pairs,
the session's voice channel id, and the `voiceConn != nil` /
`State.Guild` success flags. -/
structure VoiceSession where
  speakerMap : List (Nat × String)
  voiceStates : List (String × String)
  channelID : String
  hasVoiceConn : Bool
  hasGuild : Bool
deriving DecidableEq, Repr

namespace VoiceSession

/-- Go map assignment `m[k] = v`: overwrite the entry if present, else add. -/
def setKey (m : List (Nat × String)) (k : Nat) (v : String) : List (Nat × String) :=
  if (m.lookup k).isSome then
    m.map (fun p => if p.1 = k then (k, v) else p)
  else
    m ++ [(k, v)]

/-- `autoMapSSRCToUser`: list users currently in the session's channel (in
`VoiceStates` order), compute the set of already-mapped users, and if some
channel user is unmapped, record `ssrc → firstUnmapped` and return it;
otherwise return `""`.  Returns the (possibly updated) session too. -/
def autoMapSSRCToUser (vs : VoiceSession) (ssrc : Nat) : String × VoiceSession :=
  if ¬ vs.hasGuild then ("", vs)
  else
    let usersInChannel := (vs.voiceStates.filter (fun p => p.2 = vs.channelID)).map (·.1)
    let mappedUsers := vs.speakerMap.map (·.2)
    let unmappedUsers := usersInChannel.filter (fun u => ¬ u ∈ mappedUsers)
    match unmappedUsers with
    | [] => ("", vs)
    | u :: _ => (u, { vs with speakerMap := setKey vs.speakerMap ssrc u })

/-- `getCurrentSpeakers(ssrc)`: direct `speakerMap` lookup; else heuristic
auto-mapping; else (voice connection and guild permitting) fall back to the
first voice state in the session's channel **without recording a mapping**;
else the empty list. -/
def getCurrentSpeakers (vs : VoiceSession) (ssrc : Nat) : List String × VoiceSession :=
  match vs.speakerMap.lookup ssrc with
  | some speaker => ([speaker], vs)
  | none =>
    match autoMapSSRCToUser vs ssrc with
    | (mappedUser, vs1) =>
      if ¬ mappedUser = "" then ([mappedUser], vs1)
      else if ¬ vs1.hasVoiceConn then ([], vs1)
      else if ¬ vs1.hasGuild then ([], vs1)
      else
        match vs1.voiceStates.filter (fun p => p.2 = vs1.channelID) with
        | [] => ([], vs1)
        | (uid, _) :: _ => ([uid], vs1)

/-- `handleSpeakingUpdate`: on `Speaking == true` record `SSRC → UserID`;
on `false` keep the mapping (the code only logs). -/
def handleSpeakingUpdate (vs : VoiceSession) (ssrc : Nat) (userID : String)
    (speaking : Bool) : VoiceSession :=
  if speaking then { vs with speakerMap := setKey vs.speakerMap ssrc userID }
  else vs

/-- Events that can hit the resolver between two `getCurrentSpeakers` calls:
a Discord speaking update, a resolver call for some SSRC (which may auto-map),
and a change of the guild's voice states (members joining/leaving the
channel — external state, not an identity event). -/
inductive SessionEvent where
  | speaking (ssrc : Nat) (userID : String) (isSpeaking : Bool)
  | resolve (ssrc : Nat)
  | membership (states : List (String × String))
deriving DecidableEq, Repr

/-- Apply one event to the session state. -/
def applyEvent (vs : VoiceSession) : SessionEvent → VoiceSession
  | .speaking ssrc u b => handleSpeakingUpdate vs ssrc u b
  | .resolve ssrc => (getCurrentSpeakers vs ssrc).2
  | .membership states => { vs with voiceStates := states }

/-- Apply a list of events in order. -/
def applyEvents (vs : VoiceSession) : List SessionEvent → VoiceSession
  | [] => vs
  | e :: rest => applyEvents (applyEvent vs e) rest

end VoiceSession

/-! ## Configuration and chunker construction sites -/

/-- The chunking-related fields of `config.Config`. -/
structure Config where
  chunkSeconds : Nat
  chunkOverlapMS : Nat
  maxParallelSTT : Nat
deriving DecidableEq, Repr

/-- `config.Load` with the environment unset:
`CHUNK_SECONDS` defaults to 5, `CHUNK_OVERLAP_MS` to 300,
`MAX_PARALLEL_STT` to 4. -/
def Config.loadDefaults : Config :=
  { chunkSeconds := 5, chunkOverlapMS := 300, maxParallelSTT := 4 }

/-- `audio.SampleRate` (decoder.go): 48000. -/
def SampleRate : Nat := 48000

/-- The chunker template built in `Bot.handleJoin`:
`audio.NewRingChunker(b.config.ChunkSeconds, b.config.ChunkOverlapMS, audio.SampleRate)`. -/
def handleJoinChunkerTemplate (cfg : Config) : RingChunker :=
  RingChunker.NewRingChunker cfg.chunkSeconds cfg.chunkOverlapMS SampleRate

/-- The chunker actually created per SSRC in
`VoiceSession.getOrCreateChunkerForSSRC`:
`audio.NewRingChunker(10, 500, 48000)` — the literals `10`, `500`, `48000`
appear in the source; the configured template is not consulted. -/
def getOrCreateChunkerForSSRC : RingChunker :=
  RingChunker.NewRingChunker 10 500 48000

/-! ## Opus decoder comfort-noise path (`internal/audio/decoder.go`) -/

/-- `audio.FrameSize`: 960 samples (20 ms at 48 kHz). -/
def FrameSize : Nat := 960

/-- `OpusDecoder.Decode`: a 3-byte frame `F8 FF FE` (comfort noise) yields a
zero-filled block of `FrameSize` samples without calling the Opus library;
any other frame is handed to the library decoder, modelled as an oracle
`opusDecode` (`none` = decode error). -/
def Decode (opusDecode : List Nat → Option (List Int)) (opus : List Nat) :
    Option (List Int) :=
  if opus.length = 3 ∧ opus.getD 0 0 = 0xF8 ∧ opus.getD 1 0 = 0xFF ∧
      opus.getD 2 0 = 0xFE then
    some (List.replicate FrameSize 0)
  else
    opusDecode opus

/-! ## Deepgram transcriber (`internal/stt/deepgram/deepgram.go`) -/

/-- An `audio.Utterance` as filled in by `DeepgramTranscriber.Transcribe`
(the `uuid` id is omitted; the `float64` confidence is carried through
unchanged and modelled as an opaque `Int`). -/
structure Utterance where
  tsStart : Int
  tsEnd : Int
  userID : String
  userTag : String
  text : String
  source : String
  confidence : Int
deriving DecidableEq, Repr

/-- One alternative of a parsed Deepgram response. -/
structure DGAlternative where
  transcript : String
  confidence : Int
deriving DecidableEq, Repr

/-- A parsed `DeepgramResponse`: channels, each with alternatives. -/
structure DGResponse where
  channels : List (List DGAlternative)
deriving DecidableEq, Repr

/-- The pure part of `DeepgramTranscriber.Transcribe`, after the HTTP round
trip and JSON unmarshal: empty PCM returns no utterances; no channels returns
none; otherwise, for every alternative of channel 0 with a non-empty
transcript, build one utterance spanning the whole chunk, with
`UserID`/`UserTag` set to `chunk.Speakers[0]` when the speaker list is
non-empty and left `""` otherwise. -/
def Transcribe (chunk : Chunk) (resp : DGResponse) : List Utterance :=
  if chunk.pcm = [] then []
  else
    match resp.channels with
    | [] => []
    | alts :: _ =>
      (alts.filter (fun a => ¬ a.transcript = "")).map fun a =>
        { tsStart := chunk.start
          tsEnd := chunk.stop_
          userID := if chunk.speakersL.length > 0 then chunk.speakersL.headD "" else ""
          userTag := if chunk.speakersL.length > 0 then chunk.speakersL.headD "" else ""
          text := a.transcript
          source := "deepgram"
          confidence := a.confidence }

/-! ## Shared fixtures and helper lemmas -/

/-- A small but structurally faithful chunker:
`NewRingChunker(3, 1000, 2)`, so `chunkSamples = 6`, `overlapSamples = 2`,
buffer size `8`, slide amount `4`. -/
def smallChunker : RingChunker := RingChunker.NewRingChunker 3 1000 2

/-- `Stop` on an already-stopped chunker returns it unchanged. -/
theorem RingChunker.Stop_of_stopped (c : RingChunker) (h : c.stopped = true) :
    RingChunker.Stop c = some c := by
  unfold RingChunker.Stop
  simp [h]

/-- Every state `Stop` successfully returns has `stopped = true`. -/
theorem RingChunker.stopped_of_Stop (c c1 : RingChunker)
    (h : RingChunker.Stop c = some c1) : c1.stopped = true := by
  unfold RingChunker.Stop at h
  split at h
  · cases h
    assumption
  · dsimp only at h
    split at h
    · split at h
      · cases h
      · split at h <;> (cases h; rfl)
    · cases h
      rfl

/-! ## Claim theorems -/

/-- C5: calling `Stop()` twice has the same observable effect as calling it
once — the second call returns without touching the state (no second flush, no
second close of the channels). -/
theorem C5_stop_idempotent (c : RingChunker) :
    (RingChunker.Stop c).bind RingChunker.Stop = RingChunker.Stop c := by
  cases h : RingChunker.Stop c with
  | none => rfl
  | some c1 =>
    have := RingChunker.Stop_of_stopped c1 (RingChunker.stopped_of_Stop c c1 h)
    simpa using this

/-- C8: an `AddSamples` call on a chunker on which `Stop()` has returned is a
no-op: the state (buffer, positions, timestamps, speakers, queue) is returned
unchanged and no chunk is emitted. -/
theorem C8_add_after_stop_noop (c c1 : RingChunker) (pcm : List Int) (ts : Int)
    (sp : List String) (h : RingChunker.Stop c = some c1) :
    RingChunker.AddSamples c1 pcm ts sp = some c1 := by
  have hs := RingChunker.stopped_of_Stop c c1 h
  unfold RingChunker.AddSamples
  simp [hs]

/-- Witness for C8: a concrete stopped chunker absorbs an `AddSamples` call. -/
theorem C8_add_after_stop_noop_witness :
    RingChunker.AddSamples
      { RingChunker.NewRingChunker 3 1000 2 with stopped := true, queueClosed := true }
      [1, 2, 3] 7 ["a"]
      = some { RingChunker.NewRingChunker 3 1000 2 with stopped := true, queueClosed := true } :=
  C8_add_after_stop_noop (RingChunker.NewRingChunker 3 1000 2) _ [1, 2, 3] 7 ["a"] (by decide)

/-- C9: `Decode` maps the reserved comfort-noise frame `F8 FF FE` to a
zero-filled block of 960 samples with no error, for **every** behaviour of the
underlying Opus library decoder — in particular the library is not invoked
(the result is the same even for an oracle that always fails). -/
theorem C9_comfort_noise_frame (opusDecode : List Nat → Option (List Int)) :
    Decode opusDecode [0xF8, 0xFF, 0xFE] = some (List.replicate 960 0) := by
  rfl

/-- C4: the per-SSRC chunkers actually used by a session are created by
`getOrCreateChunkerForSSRC` with the hardcoded literals `(10, 500, 48000)`,
not with the configured `ChunkSeconds`/`ChunkOverlapMS` (defaults 5 and 300)
that `handleJoin` put into the (unused) chunker template: window length and
overlap differ from every quantity derived from the configuration defaults. -/
theorem C4_session_chunker_ignores_config :
    getOrCreateChunkerForSSRC.chunkSeconds = 10 ∧
    Config.loadDefaults.chunkSeconds = 5 ∧
    getOrCreateChunkerForSSRC.chunkSamples = 480000 ∧
    (handleJoinChunkerTemplate Config.loadDefaults).chunkSamples = 240000 ∧
    getOrCreateChunkerForSSRC.overlapSamples = 24000 ∧
    (handleJoinChunkerTemplate Config.loadDefaults).overlapSamples = 14400 ∧
    ¬ getOrCreateChunkerForSSRC.chunkSamples
        = (handleJoinChunkerTemplate Config.loadDefaults).chunkSamples ∧
    ¬ getOrCreateChunkerForSSRC.overlapSamples
        = (handleJoinChunkerTemplate Config.loadDefaults).overlapSamples := by
  refine ⟨rfl, rfl, rfl, rfl, rfl, rfl, by decide, by decide⟩

/-- C10: every utterance `Transcribe` produces for a chunk carries
`UserID = UserTag = Speakers[0]` when the chunk's speaker list is non-empty
(regardless of how many speakers it holds), and empty `UserID`/`UserTag` when
the speaker list is empty. -/
theorem C10_utterance_speaker_attribution (chunk : Chunk) (resp : DGResponse)
    (u : Utterance) (hu : u ∈ Transcribe chunk resp) :
    (¬ chunk.speakersL = [] →
      u.userID = chunk.speakersL.headD "" ∧ u.userTag = chunk.speakersL.headD "") ∧
    (chunk.speakersL = [] → u.userID = "" ∧ u.userTag = "") := by
  obtain ⟨channels⟩ := resp
  unfold Transcribe at hu
  split at hu
  · simp at hu
  · cases channels with
    | nil => simp at hu
    | cons alts rest =>
      simp only [List.mem_map] at hu
      obtain ⟨a, _, rfl⟩ := hu
      constructor
      · intro hne
        have hlen : chunk.speakersL.length > 0 := by
          cases hsp : chunk.speakersL with
          | nil => exact absurd hsp hne
          | cons _ _ => simp [hsp]
        simp [hlen]
      · intro heq
        simp [heq]

/-- Witness for C10: a concrete chunk with two speakers; the produced utterance
carries the first one. -/
theorem C10_utterance_speaker_attribution_witness :
    (¬ (Chunk.mk [1] 0 5 ["alice", "bob"]).speakersL = [] →
      (Utterance.mk 0 5 "alice" "alice" "hi" "deepgram" 9).userID
          = (Chunk.mk [1] 0 5 ["alice", "bob"]).speakersL.headD "" ∧
      (Utterance.mk 0 5 "alice" "alice" "hi" "deepgram" 9).userTag
          = (Chunk.mk [1] 0 5 ["alice", "bob"]).speakersL.headD "") ∧
    ((Chunk.mk [1] 0 5 ["alice", "bob"]).speakersL = [] →
      (Utterance.mk 0 5 "alice" "alice" "hi" "deepgram" 9).userID = "" ∧
      (Utterance.mk 0 5 "alice" "alice" "hi" "deepgram" 9).userTag = "") :=
  C10_utterance_speaker_attribution (Chunk.mk [1] 0 5 ["alice", "bob"])
    (DGResponse.mk [[DGAlternative.mk "hi" 9]])
    (Utterance.mk 0 5 "alice" "alice" "hi" "deepgram" 9) (by decide)

/-- The `AddSamples` call sequence exhibiting the broken overlap: after the
first clean window `[0..5]` (overlap `[4,5]` retained) and three more samples,
a six-sample call makes `bufferPos + i` reach the buffer length mid-loop, so
the code runs `createChunk` (a no-op, fewer than `chunkSamples` counted) and
`slideBuffer`, which moves only the *counted* prefix and overwrites the
retained overlap region with interior samples. -/
def c1Calls : List (List Int × Int × List String) :=
  [([0, 1, 2, 3, 4, 5], 0, []), ([6, 7, 8], 0, []), ([9, 10, 11, 12, 13, 14], 0, [])]

/-- C1 (code bug): on `smallChunker` (`chunkSamples = 6`, `overlapSamples = 2`)
the run `c1Calls` emits exactly two consecutive chunks into the queue — no
chunk is dropped in between — whose PCM is `[0,1,2,3,4,5]` and
`[8,5,6,7,12,13]`: the last two samples of the first (`[4,5]`) differ from the
first two of the second (`[8,5]`), so the byte-for-byte overlap invariant fails
on the code as written. -/
theorem C1_overlap_invariant_broken :
    (RingChunker.runAdds smallChunker c1Calls).map
        (fun c => (c.queue.map Chunk.pcm, c.dropped,
          RingChunker.pairwiseOverlapOK c.chunkSamples c.overlapSamples c.queue))
      = some ([[0, 1, 2, 3, 4, 5], [8, 5, 6, 7, 12, 13]], 0, false) := by
  decide

/-- Twenty-one two-sample calls: enough for ten windows on `smallChunker`
(six samples for the first window, four fresh samples per further window),
filling the capacity-10 output queue, with `bufferPos = 2` left over. -/
def tenWindowCalls : List (List Int × Int × List String) :=
  (List.range 21).map (fun i => ([2 * (i : Int), 2 * (i : Int) + 1], (0 : Int), ([] : List String)))

/-- C6 (counterexample to the unconditional claim): after `tenWindowCalls`
plus one extra sample the queue holds 10 chunks and `bufferPos = 3` exceeds
`overlapSamples = 2`, yet `Stop` emits no final chunk — the non-blocking send
hits the full queue and the final chunk is dropped (`droppedFinal = 1`), so
"emits a final chunk iff buffered samples exceed the overlap" is false as
stated. -/
theorem C6_final_flush_dropped_on_full_queue :
    (RingChunker.runAdds smallChunker (tenWindowCalls ++ [([99], 0, [])])).map
        (fun c => (decide (c.overlapSamples < c.bufferPos), c.queue.length,
          (RingChunker.Stop c).map (fun c1 => (c1.queue.length, c1.droppedFinal, c1.queueClosed))))
      = some (true, 10, some (10, 1, true)) := by
  decide

/-- C6 (amended): `Stop()` on a not-yet-stopped chunker (at any state where
the Go slices do not panic) closes the output queue in every case, and:
with `bufferPos > overlapSamples` and a non-full queue it appends one final
chunk holding exactly the `bufferPos` buffered samples; with
`bufferPos > overlapSamples` and a full queue it appends nothing and logs the
drop (`droppedFinal` incremented); with `bufferPos ≤ overlapSamples` it
appends nothing and logs nothing.  In particular a final chunk is emitted iff
the buffered samples exceed the overlap *and* the queue has room. -/
theorem C6_stop_flush_iff_exceeds_overlap (c : RingChunker)
    (hstop : c.stopped = false)
    (hb : c.bufferPos ≤ c.buffer.length) (ht : c.bufferPos ≤ c.timestamps.length)
    (hs : c.bufferPos ≤ c.speakers.length) :
    ∃ c1, RingChunker.Stop c = some c1 ∧ c1.queueClosed = true ∧
      (c.overlapSamples < c.bufferPos → c.queue.length < 10 →
        c1.queue = c.queue ++ [⟨c.buffer.take c.bufferPos, c.timestamps.getD 0 0,
          c.timestamps.getD (c.bufferPos - 1) 0,
          RingChunker.collectSpeakers (c.speakers.take c.bufferPos)⟩] ∧
        c1.droppedFinal = c.droppedFinal) ∧
      (c.overlapSamples < c.bufferPos → 10 ≤ c.queue.length →
        c1.queue = c.queue ∧ c1.droppedFinal = c.droppedFinal + 1) ∧
      (c.bufferPos ≤ c.overlapSamples →
        c1.queue = c.queue ∧ c1.droppedFinal = c.droppedFinal) := by
  unfold RingChunker.Stop
  simp only [hstop, Bool.false_eq_true, if_false]
  by_cases hov : c.overlapSamples < c.bufferPos
  · rw [if_pos hov, if_neg (by push_neg; exact ⟨hb, ht, hs⟩)]
    by_cases hq : c.queue.length < 10
    · rw [if_pos hq]
      exact ⟨_, rfl, rfl, fun _ _ => ⟨rfl, rfl⟩, fun _ hfull => absurd hq (by omega),
        fun hle => absurd hov (by omega)⟩
    · rw [if_neg hq]
      exact ⟨_, rfl, rfl, fun _ hlt => absurd hlt hq, fun _ _ => ⟨rfl, rfl⟩,
        fun hle => absurd hov (by omega)⟩
  · rw [if_neg hov]
    exact ⟨_, rfl, rfl, fun hgt _ => absurd hgt hov, fun hgt _ => absurd hgt hov,
      fun _ => ⟨rfl, rfl⟩⟩

/-- Witness for C6 (amended): a chunker with three buffered samples; the
emit/drop/no-flush trichotomy holds at it and the queue gets closed. -/
theorem C6_stop_flush_iff_exceeds_overlap_witness :
    ∃ c1, RingChunker.Stop { smallChunker with bufferPos := 3 } = some c1 ∧
      c1.queueClosed = true ∧
      (({ smallChunker with bufferPos := 3 } : RingChunker).overlapSamples < 3 →
        ({ smallChunker with bufferPos := 3 } : RingChunker).queue.length < 10 →
        c1.queue = ({ smallChunker with bufferPos := 3 } : RingChunker).queue ++
          [⟨({ smallChunker with bufferPos := 3 } : RingChunker).buffer.take 3,
            ({ smallChunker with bufferPos := 3 } : RingChunker).timestamps.getD 0 0,
            ({ smallChunker with bufferPos := 3 } : RingChunker).timestamps.getD (3 - 1) 0,
            RingChunker.collectSpeakers
              (({ smallChunker with bufferPos := 3 } : RingChunker).speakers.take 3)⟩] ∧
        c1.droppedFinal = ({ smallChunker with bufferPos := 3 } : RingChunker).droppedFinal) ∧
      (({ smallChunker with bufferPos := 3 } : RingChunker).overlapSamples < 3 →
        10 ≤ ({ smallChunker with bufferPos := 3 } : RingChunker).queue.length →
        c1.queue = ({ smallChunker with bufferPos := 3 } : RingChunker).queue ∧
        c1.droppedFinal
          = ({ smallChunker with bufferPos := 3 } : RingChunker).droppedFinal + 1) ∧
      (3 ≤ ({ smallChunker with bufferPos := 3 } : RingChunker).overlapSamples →
        c1.queue = ({ smallChunker with bufferPos := 3 } : RingChunker).queue ∧
        c1.droppedFinal = ({ smallChunker with bufferPos := 3 } : RingChunker).droppedFinal) :=
  C6_stop_flush_iff_exceeds_overlap { smallChunker with bufferPos := 3 }
    (by decide) (by decide) (by decide) (by decide)

/-- `tenWindowCalls` then one window whose non-overlap region holds the marker
sample `42`: the chunk `[40,41,42,43,44,45]` is produced with the queue full. -/
def c7Calls : List (List Int × Int × List String) :=
  tenWindowCalls ++ [([42, 43], 0, []), ([44, 45], 0, [])]

/-- C7 (counterexample to "the overlap region is sacrificed first"): with the
queue full, the produced chunk `[40,41,42,43,44,45]` is dropped **whole**
(`dropped = 1`, queue still at 10): its non-overlap sample `42` is afterwards
neither in any queued chunk nor among the chunker's live buffered samples,
while the *overlap* tail `[44,45]` is exactly what remains buffered — the
opposite of sacrificing the overlap first; and the state has no
silence-coalescing threshold to extend. -/
theorem C7_whole_chunk_dropped_not_overlap_first :
    (RingChunker.runAdds smallChunker c7Calls).map
        (fun c => (c.queue.length, c.dropped, c.buffer.take c.bufferPos,
          decide (∃ ch ∈ c.queue, (42 : Int) ∈ ch.pcm),
          decide ((42 : Int) ∈ c.buffer.take c.bufferPos)))
      = some (10, 1, [44, 45], false, false) := by
  decide

/-- C7 (amended): whenever `createChunk` produces a chunk while the queue is
full, the chunk is dropped in its entirety and the drop is logged (`dropped`
incremented); the queue and the whole buffer state are left untouched, and
only `lastChunkTime` advances — there is no partial (overlap-first) drop and
no secondary policy response. -/
theorem C7_full_queue_drops_whole_chunk (c : RingChunker)
    (hfull : 10 ≤ c.queue.length) (hpos : c.chunkSamples ≤ c.bufferPos)
    (hcs : ¬ c.chunkSamples = 0) (hb : c.chunkSamples ≤ c.buffer.length)
    (ht : c.chunkSamples ≤ c.timestamps.length) (hs : c.chunkSamples ≤ c.speakers.length) :
    RingChunker.createChunk c
      = some { c with
          dropped := c.dropped + 1
          lastChunkTime := c.timestamps.getD (c.chunkSamples - 1) 0 } := by
  unfold RingChunker.createChunk
  rw [if_neg (by omega), if_neg (by push_neg; exact ⟨hcs, by omega, by omega, by omega⟩),
    if_neg (by omega)]

/-- Witness for C7 (amended): a full-queue chunker state on which the produced
chunk is dropped whole. -/
theorem C7_full_queue_drops_whole_chunk_witness :
    RingChunker.createChunk
        { smallChunker with
            bufferPos := 6
            queue := List.replicate 10 (Chunk.mk [] 0 0 []) }
      = some { smallChunker with
            bufferPos := 6
            queue := List.replicate 10 (Chunk.mk [] 0 0 [])
            dropped := 0 + 1
            lastChunkTime := 0 } :=
  C7_full_queue_drops_whole_chunk
    { smallChunker with
        bufferPos := 6
        queue := List.replicate 10 (Chunk.mk [] 0 0 []) }
    (by decide) (by decide) (by decide) (by decide) (by decide) (by decide)

/-- Invariant carried through a chunker run: every chunk already in the queue
holds exactly `chunkSamples` samples. -/
def RingChunker.queueLensOK (c : RingChunker) : Prop :=
  ∀ ch ∈ c.queue, ch.pcm.length = c.chunkSamples

/-- `createChunk` preserves the configuration and the queue-length invariant:
any chunk it appends is `buffer.take chunkSamples` with the buffer at least
`chunkSamples` long (otherwise the Go code would have panicked). -/
theorem RingChunker.createChunk_queueLensOK (c c1 : RingChunker)
    (h : RingChunker.createChunk c = some c1) (hq : c.queueLensOK) :
    c1.chunkSamples = c.chunkSamples ∧ c1.queueLensOK := by
  unfold RingChunker.createChunk at h
  split at h
  · cases h
    exact ⟨rfl, hq⟩
  case isFalse hguard =>
    split at h
    · cases h
    case isFalse hlen =>
      push_neg at hlen
      obtain ⟨hcs, hbuf, htime, hsp⟩ := hlen
      split at h <;> cases h
      · refine ⟨rfl, ?_⟩
        intro ch hch
        simp only [RingChunker.queueLensOK] at hq ⊢
        rcases List.mem_append.mp hch with hold | hnew
        · exact hq ch hold
        · simp only [List.mem_singleton] at hnew
          subst hnew
          simp [List.length_take]
          omega
      · exact ⟨rfl, hq⟩

/-- `slideBuffer` never touches the queue or the configuration. -/
theorem RingChunker.slideBuffer_queue (c c1 : RingChunker)
    (h : RingChunker.slideBuffer c = some c1) :
    c1.chunkSamples = c.chunkSamples ∧ c1.queue = c.queue := by
  unfold RingChunker.slideBuffer at h
  dsimp only at h
  split at h
  · split at h
    · cases h
    · cases h
      exact ⟨rfl, rfl⟩
  · cases h
    exact ⟨rfl, rfl⟩

/-- The write loop of `AddSamples` preserves the queue-length invariant and
the configuration (chunks are only created through `createChunk`). -/
theorem RingChunker.addLoop_queueLensOK (ts : Int) (sp : List String) :
    ∀ (pcm : List Int) (i : Nat) (c c1 : RingChunker),
      RingChunker.addLoop ts sp c pcm i = some c1 → c.queueLensOK →
      c1.chunkSamples = c.chunkSamples ∧ c1.queueLensOK := by
  intro pcm
  induction pcm with
  | nil =>
    intro i c c1 h hq
    cases h
    exact ⟨rfl, hq⟩
  | cons x rest ih =>
    intro i c c1 h hq
    unfold RingChunker.addLoop at h
    split at h
    · cases h
    · dsimp only at h
      rw [Option.bind_eq_some] at h
      obtain ⟨cmid, hstep, hrest⟩ := h
      have hmid : cmid.chunkSamples = c.chunkSamples ∧ cmid.queueLensOK := by
        split at hstep
        · rw [Option.bind_eq_some] at hstep
          obtain ⟨c2, hcr, hsl⟩ := hstep
          obtain ⟨hcs2, hq2⟩ := RingChunker.createChunk_queueLensOK c c2 hcr hq
          obtain ⟨hcs3, hq3⟩ := RingChunker.slideBuffer_queue c2 cmid hsl
          refine ⟨hcs3.trans hcs2, ?_⟩
          intro ch hch
          rw [hq3] at hch
          rw [hcs3]
          exact hq2 ch hch
        · cases hstep
          exact ⟨rfl, hq⟩
      obtain ⟨hcsm, hqm⟩ := hmid
      split at hrest
      · cases hrest
      · have := ih (i + 1) _ c1 hrest (by exact hqm)
        exact ⟨this.1.trans hcsm, this.2⟩

/-- `AddSamples` preserves the queue-length invariant and the configuration. -/
theorem RingChunker.AddSamples_queueLensOK (c c1 : RingChunker) (pcm : List Int)
    (ts : Int) (sp : List String)
    (h : RingChunker.AddSamples c pcm ts sp = some c1) (hq : c.queueLensOK) :
    c1.chunkSamples = c.chunkSamples ∧ c1.queueLensOK := by
  unfold RingChunker.AddSamples at h
  split at h
  · cases h
    exact ⟨rfl, hq⟩
  · rw [Option.bind_eq_some] at h
    obtain ⟨ca, hloop, hrest⟩ := h
    obtain ⟨hcsa, hqa⟩ := RingChunker.addLoop_queueLensOK ts sp pcm 0 c ca hloop hq
    have hqb : ({ ca with bufferPos := ca.bufferPos + pcm.length } : RingChunker).queueLensOK := hqa
    dsimp only at hrest
    split at hrest
    · rw [Option.bind_eq_some] at hrest
      obtain ⟨cb, hcr, hsl⟩ := hrest
      obtain ⟨hcsb, hqc⟩ :=
        RingChunker.createChunk_queueLensOK _ cb hcr hqb
      obtain ⟨hcsd, hqd⟩ := RingChunker.slideBuffer_queue cb c1 hsl
      refine ⟨(hcsd.trans hcsb).trans hcsa, ?_⟩
      intro ch hch
      rw [hqd] at hch
      rw [hcsd]
      exact hqc ch hch
    · cases hrest
      exact ⟨hcsa, hqa⟩

/-- A whole sequence of `AddSamples` calls preserves the invariant. -/
theorem RingChunker.runAdds_queueLensOK :
    ∀ (calls : List (List Int × Int × List String)) (c c1 : RingChunker),
      RingChunker.runAdds c calls = some c1 → c.queueLensOK →
      c1.chunkSamples = c.chunkSamples ∧ c1.queueLensOK := by
  intro calls
  induction calls with
  | nil =>
    intro c c1 h hq
    cases h
    exact ⟨rfl, hq⟩
  | cons call rest ih =>
    intro c c1 h hq
    obtain ⟨pcm, ts, sp⟩ := call
    unfold RingChunker.runAdds at h
    rw [Option.bind_eq_some] at h
    obtain ⟨ca, hadd, hrun⟩ := h
    obtain ⟨hcsa, hqa⟩ := RingChunker.AddSamples_queueLensOK c ca pcm ts sp hadd hq
    have := ih ca c1 hrun hqa
    exact ⟨this.1.trans hcsa, this.2⟩

/-- `Stop` appends at most one (final) chunk at the very end of the queue and
does not change the configuration. -/
theorem RingChunker.Stop_queue_shape (c c1 : RingChunker)
    (h : RingChunker.Stop c = some c1) :
    c1.chunkSamples = c.chunkSamples ∧
      (c1.queue = c.queue ∨ ∃ ch, c1.queue = c.queue ++ [ch]) := by
  unfold RingChunker.Stop at h
  split at h
  · cases h
    exact ⟨rfl, Or.inl rfl⟩
  · dsimp only at h
    split at h
    · split at h
      · cases h
      · split at h <;> cases h
        · exact ⟨rfl, Or.inr ⟨_, rfl⟩⟩
        · exact ⟨rfl, Or.inl rfl⟩
    · cases h
      exact ⟨rfl, Or.inl rfl⟩

/-- C2: for every configuration, every sequence of `AddSamples` calls whose
total sample count is at least one window, and every completed run (no Go
panic), every chunk the `AddSamples` phase put on the queue holds exactly
`chunkSamples = chunkSeconds * sampleRate` samples, and `Stop()` appends at
most one further chunk — the final flush — at the very end of the queue: so
every queued chunk except possibly that final flushed one is window-sized. -/
theorem C2_emitted_chunks_are_window_sized (secs ovMS rate : Nat)
    (calls : List (List Int × Int × List String)) (cfinal : RingChunker)
    (htotal : secs * rate ≤ (calls.map (fun t => t.1.length)).sum)
    (hrun : (RingChunker.runAdds (RingChunker.NewRingChunker secs ovMS rate) calls).bind
        RingChunker.Stop = some cfinal) :
    ∃ cmid, RingChunker.runAdds (RingChunker.NewRingChunker secs ovMS rate) calls = some cmid ∧
      RingChunker.Stop cmid = some cfinal ∧
      (∀ ch ∈ cmid.queue, ch.pcm.length = secs * rate) ∧
      (cfinal.queue = cmid.queue ∨ ∃ fc, cfinal.queue = cmid.queue ++ [fc]) := by
  rw [Option.bind_eq_some] at hrun
  obtain ⟨cmid, hadds, hstop⟩ := hrun
  have hq0 : (RingChunker.NewRingChunker secs ovMS rate).queueLensOK := by
    intro ch hch
    simp [RingChunker.NewRingChunker] at hch
  obtain ⟨hcs, hqm⟩ :=
    RingChunker.runAdds_queueLensOK calls (RingChunker.NewRingChunker secs ovMS rate) cmid hadds hq0
  have hcsv : cmid.chunkSamples = secs * rate := hcs
  refine ⟨cmid, hadds, hstop, ?_, (RingChunker.Stop_queue_shape cmid cfinal hstop).2⟩
  intro ch hch
  rw [← hcsv]
  exact hqm ch hch

/-- The final state of the concrete C2 witness run. -/
def c2FinalState : RingChunker :=
  { chunkSeconds := 3
    overlapMS := 1000
    sampleRate := 2
    chunkSamples := 6
    overlapSamples := 2
    buffer := [8, 9, 6, 7, 8, 9, 0, 0]
    timestamps := [1000000000, 1500000000, 0, 500000000, 1000000000, 1500000000, 0, 0]
    speakers := [[], [], [], [], [], [], [], []]
    bufferPos := 2
    lastChunkTime := 1500000000
    queue := [Chunk.mk [0, 1, 2, 3, 4, 5] 0 2500000000 [],
              Chunk.mk [4, 5, 6, 7, 8, 9] 2000000000 1500000000 []]
    queueClosed := true
    dropped := 0
    droppedFinal := 0
    stopped := true }

/-- Witness for C2: a concrete run on `NewRingChunker(3, 1000, 2)` — ten
samples over two calls, then `Stop` — yields two window-sized chunks in the
`AddSamples` phase (`Stop` here flushes nothing, so both queued chunks are
covered and each holds exactly `3 * 2 = 6` samples). -/
theorem C2_emitted_chunks_are_window_sized_witness :
    ∃ cmid, RingChunker.runAdds (RingChunker.NewRingChunker 3 1000 2)
        [([0, 1, 2, 3, 4, 5], 0, []), ([6, 7, 8, 9], 0, [])] = some cmid ∧
      RingChunker.Stop cmid = some c2FinalState ∧
      (∀ ch ∈ cmid.queue, ch.pcm.length = 3 * 2) ∧
      (c2FinalState.queue = cmid.queue ∨ ∃ fc, c2FinalState.queue = cmid.queue ++ [fc]) :=
  C2_emitted_chunks_are_window_sized 3 1000 2
    [([0, 1, 2, 3, 4, 5], 0, []), ([6, 7, 8, 9], 0, [])] c2FinalState
    (by decide) (by decide)

/-- Overwriting key `j` (Go map assignment on an existing key) leaves the
entry of any other key alone. -/
theorem VoiceSession.lookup_map_set (m : List (Nat × String)) (k j : Nat) (v : String)
    (h : ¬ j = k) :
    List.lookup k (m.map (fun p => if p.1 = j then (j, v) else p)) = List.lookup k m := by
  induction m with
  | nil => rfl
  | cons p rest ih =>
    simp only [List.map_cons]
    by_cases hp : p.1 = j
    · rw [if_pos hp]
      have h1 : (k == j) = false := by
        simp only [beq_eq_false_iff_ne, ne_eq]
        omega
      have h2 : (k == p.1) = false := by
        rw [hp]
        exact h1
      simp [List.lookup, h1, h2, ih]
    · rw [if_neg hp]
      cases hkp : (k == p.1) <;> simp [List.lookup, hkp, ih]

/-- Appending a new key `j` (Go map assignment on a fresh key) leaves the
entry of any other key alone. -/
theorem VoiceSession.lookup_append_key (m : List (Nat × String)) (k j : Nat) (v : String)
    (h : ¬ j = k) : List.lookup k (m ++ [(j, v)]) = List.lookup k m := by
  induction m with
  | nil =>
    have h1 : (k == j) = false := by
      simp only [beq_eq_false_iff_ne, ne_eq]
      omega
    simp [List.lookup, h1]
  | cons p rest ih =>
    cases hkp : (k == p.1) <;> simp [List.lookup, hkp, ih]

/-- Writing a different key into the speaker map leaves a key's entry alone. -/
theorem VoiceSession.lookup_setKey_ne (m : List (Nat × String)) (k j : Nat) (v : String)
    (h : ¬ j = k) : (VoiceSession.setKey m j v).lookup k = m.lookup k := by
  unfold VoiceSession.setKey
  split
  · exact VoiceSession.lookup_map_set m k j v h
  · exact VoiceSession.lookup_append_key m k j v h

/-- The heuristic auto-mapper only ever writes the SSRC it was asked about:
entries of other SSRCs are preserved. -/
theorem VoiceSession.autoMap_preserves_lookup (vs : VoiceSession) (s ssrc : Nat)
    (h : ¬ s = ssrc) :
    (VoiceSession.autoMapSSRCToUser vs s).2.speakerMap.lookup ssrc
      = vs.speakerMap.lookup ssrc := by
  unfold VoiceSession.autoMapSSRCToUser
  split
  · rfl
  · dsimp only
    split
    · rfl
    · exact VoiceSession.lookup_setKey_ne vs.speakerMap ssrc s _ h

/-- A `getCurrentSpeakers` call for any SSRC preserves the map entry of an
already-mapped SSRC (the direct path returns the state untouched, the
auto-map path writes only its own — unmapped — SSRC, the fallback path writes
nothing). -/
theorem VoiceSession.getCurrentSpeakers_preserves_lookup (vs : VoiceSession)
    (s ssrc : Nat) (u : String) (hmap : vs.speakerMap.lookup ssrc = some u) :
    (VoiceSession.getCurrentSpeakers vs s).2.speakerMap.lookup ssrc = some u := by
  unfold VoiceSession.getCurrentSpeakers
  cases hls : vs.speakerMap.lookup s with
  | some sp => exact hmap
  | none =>
    have hs : ¬ s = ssrc := by
      intro he
      rw [he, hmap] at hls
      cases hls
    have hpres := VoiceSession.autoMap_preserves_lookup vs s ssrc hs
    dsimp only
    rcases ham : VoiceSession.autoMapSSRCToUser vs s with ⟨mu, vs1⟩
    rw [ham] at hpres
    dsimp only at hpres ⊢
    have hgoal : vs1.speakerMap.lookup ssrc = some u := by
      rw [hpres]
      exact hmap
    split
    · exact hgoal
    · split
      · exact hgoal
      · split
        · exact hgoal
        · split <;> exact hgoal

/-- One resolver-visible event preserves the map entry of a mapped SSRC,
provided the event is not a speaking update for that SSRC. -/
theorem VoiceSession.applyEvent_preserves_lookup (vs : VoiceSession) (ssrc : Nat)
    (u : String) (e : VoiceSession.SessionEvent)
    (hmap : vs.speakerMap.lookup ssrc = some u)
    (hne : ∀ uid b, ¬ e = VoiceSession.SessionEvent.speaking ssrc uid b) :
    (VoiceSession.applyEvent vs e).speakerMap.lookup ssrc = some u := by
  cases e with
  | speaking s uid b =>
    have hs : ¬ s = ssrc := by
      intro he
      exact hne uid b (by rw [he])
    show (VoiceSession.handleSpeakingUpdate vs s uid b).speakerMap.lookup ssrc = some u
    unfold VoiceSession.handleSpeakingUpdate
    split
    · dsimp only
      rw [VoiceSession.lookup_setKey_ne vs.speakerMap ssrc s uid hs]
      exact hmap
    · exact hmap
  | resolve s =>
    exact VoiceSession.getCurrentSpeakers_preserves_lookup vs s ssrc u hmap
  | membership l =>
    exact hmap

/-- A mapped SSRC resolves to its mapped identity via the direct path. -/
theorem VoiceSession.getCurrentSpeakers_of_lookup (vs : VoiceSession) (ssrc : Nat)
    (u : String) (hmap : vs.speakerMap.lookup ssrc = some u) :
    (VoiceSession.getCurrentSpeakers vs ssrc).1 = [u] := by
  unfold VoiceSession.getCurrentSpeakers
  rw [hmap]

/-- C3 (amended): once an SSRC is *recorded* in the speaker map (by a speaking
update or by the heuristic auto-assignment — i.e. by any resolution path that
writes a mapping), every later `getCurrentSpeakers` call for it returns that
same identity, across any interleaving of speaking updates for other SSRCs,
resolver calls for arbitrary SSRCs, and channel-membership changes, as long
as no speaking-update event for this SSRC intervenes.  (The unrecorded
*fallback* path is excluded: see the counterexample.) -/
theorem C3_mapped_ssrc_resolution_stable (vs : VoiceSession) (ssrc : Nat) (u : String)
    (evts : List VoiceSession.SessionEvent)
    (hmap : vs.speakerMap.lookup ssrc = some u)
    (hne : ∀ e ∈ evts, ∀ uid b, ¬ e = VoiceSession.SessionEvent.speaking ssrc uid b) :
    (VoiceSession.applyEvents vs evts).speakerMap.lookup ssrc = some u ∧
    (VoiceSession.getCurrentSpeakers (VoiceSession.applyEvents vs evts) ssrc).1 = [u] := by
  have key : (VoiceSession.applyEvents vs evts).speakerMap.lookup ssrc = some u := by
    induction evts generalizing vs with
    | nil => exact hmap
    | cons e rest ih =>
      unfold VoiceSession.applyEvents
      exact ih (VoiceSession.applyEvent vs e)
        (VoiceSession.applyEvent_preserves_lookup vs ssrc u e hmap
          (hne e (List.mem_cons_self e rest)))
        (fun x hx uid b => hne x (List.mem_cons_of_mem e hx) uid b)
  exact ⟨key, VoiceSession.getCurrentSpeakers_of_lookup _ ssrc u key⟩

/-- Witness for C3 (amended): SSRC 1 is mapped to `"userA"`; a speaking update
for SSRC 2, a resolver call for SSRC 2 and a membership change intervene, and
SSRC 1 still resolves to `"userA"`. -/
theorem C3_mapped_ssrc_resolution_stable_witness :
    (VoiceSession.applyEvents
        (VoiceSession.mk [(1, "userA")] [("userA", "ch")] "ch" true true)
        [VoiceSession.SessionEvent.speaking 2 "userB" true,
         VoiceSession.SessionEvent.resolve 2,
         VoiceSession.SessionEvent.membership [("userC", "ch")]]).speakerMap.lookup 1
      = some "userA" ∧
    (VoiceSession.getCurrentSpeakers
        (VoiceSession.applyEvents
          (VoiceSession.mk [(1, "userA")] [("userA", "ch")] "ch" true true)
          [VoiceSession.SessionEvent.speaking 2 "userB" true,
           VoiceSession.SessionEvent.resolve 2,
           VoiceSession.SessionEvent.membership [("userC", "ch")]]) 1).1
      = ["userA"] :=
  C3_mapped_ssrc_resolution_stable
    (VoiceSession.mk [(1, "userA")] [("userA", "ch")] "ch" true true) 1 "userA"
    [VoiceSession.SessionEvent.speaking 2 "userB" true,
     VoiceSession.SessionEvent.resolve 2,
     VoiceSession.SessionEvent.membership [("userC", "ch")]]
    (by decide)
    (by
      intro e he uid b
      simp only [List.mem_cons, List.not_mem_nil, or_false] at he
      rcases he with rfl | rfl | rfl <;> simp)

/-- C3 (counterexample to the claim as stated): with one channel member
`"userA"` already mapped to SSRC 1, resolving the unmapped SSRC 2 takes the
*fallback* path and returns the non-empty identity `"userA"` without recording
any mapping; after `"userB"` joins the channel — a membership change, not a
speaking-update event for SSRC 2 — the very next resolution of SSRC 2
auto-maps it to `"userB"` and returns a different identity. -/
theorem C3_fallback_resolution_unstable :
    (VoiceSession.getCurrentSpeakers
        (VoiceSession.mk [(1, "userA")] [("userA", "ch")] "ch" true true) 2).1
      = ["userA"] ∧
    (VoiceSession.getCurrentSpeakers
        (VoiceSession.mk [(1, "userA")] [("userA", "ch")] "ch" true true) 2).2
      = VoiceSession.mk [(1, "userA")] [("userA", "ch")] "ch" true true ∧
    (VoiceSession.getCurrentSpeakers
        (VoiceSession.applyEvent
          (VoiceSession.getCurrentSpeakers
            (VoiceSession.mk [(1, "userA")] [("userA", "ch")] "ch" true true) 2).2
          (VoiceSession.SessionEvent.membership [("userA", "ch"), ("userB", "ch")])) 2).1
      = ["userB"] := by
  decide
